import Mathlib

/-!
Verification of the upload orchestration core of `rl_upload.py`
(Spectra Analyze bulk file uploader).

The Python source is shallowly embedded: each relevant function is
translated into a Lean definition that mirrors its control flow, and the
specification's claims are settled as theorems about those definitions.

Modelling conventions:
* HTTP status codes are `Nat` (they are non-negative small ints in Python).
* `float` delay values (`retry_delay`, computed waits) are modelled as `ℚ`;
  the products involved (`retry_delay * attempt` for small integer
  `attempt`) are exact in IEEE floats, so `ℚ` is faithful.
* Python exceptions are modelled as explicit alternatives of an
  `AttemptResult` sum type; an upload callable's behaviour over successive
  attempts is an oracle `Nat → AttemptResult` giving the result of each
  attempt (attempt numbers start at 1, as in `range(1, retries + 1)`).
* Strings produced by Python f-strings are rebuilt with Lean string
  interpolation over the same pieces.
-/

namespace RLUpload

/-- Result of one invocation of `upload_fn(file_path)` inside
`upload_with_retry` (src/rl_upload.py lines 226-256): either a normal
return carrying `response.status_code`, or one of the caught exception
shapes.  For a generic exception (`except Exception as exc`), `resp`
models `getattr(exc, "response", None)`: `none` when there is no
`response` attribute (or it is `None`), `some none` when a response object
is present but has no `status_code` attribute, and `some (some c)` when an
embedded status code `c` is present. -/
inductive AttemptResult where
  | status (code : Nat)
  | timeout
  | connError (msg : String)
  | otherExc (msg : String) (excType : String) (resp : Option (Option Nat))
deriving DecidableEq, Repr

/-- How one attempt's result is handled by the body of the retry loop:
immediate success, retryable with an error string recorded into
`last_err`, or immediate terminal failure with a reason. -/
inductive Classification where
  | success (code : Nat)
  | retryable (err : String)
  | terminal (reason : String)
deriving DecidableEq, Repr

/-- The classification performed by the body of the `for attempt` loop of
`upload_with_retry` (src/rl_upload.py lines 226-256), faithful to the
branch order of the source:
* `200 <= code < 300` → return success;
* `code == 429 or code >= 500` → record `last_err = "HTTP <code>"`, retry;
* any other normally returned status → return failure `"HTTP <code>"`;
* `Timeout` → record `last_err = "timeout"`, retry;
* `ConnectionError` → record `last_err = "connection error: <exc>"`, retry;
* other exception with embedded retryable status → record
  `last_err = "HTTP <code> (via <ExcType>)"`, retry;
* other exception with embedded non-retryable status → return failure
  `"HTTP <code>"`;
* other exception with no embedded status → return failure `str(exc)`. -/
def classify : AttemptResult → Classification
  | .status code =>
      if 200 ≤ code ∧ code < 300 then .success code
      else if code = 429 ∨ 500 ≤ code then .retryable s!"HTTP {code}"
      else .terminal s!"HTTP {code}"
  | .timeout => .retryable "timeout"
  | .connError msg => .retryable s!"connection error: {msg}"
  | .otherExc msg excType resp =>
      match resp with
      | some (some code) =>
          if code = 429 ∨ 500 ≤ code then
            .retryable s!"HTTP {code} (via {excType})"
          else .terminal s!"HTTP {code}"
      | some none => .terminal msg
      | none => .terminal msg

/-- Final outcome of `upload_with_retry`, abstracting its
`(response, error_string)` pair: `err = none` exactly on the 2xx success
path (which carries the response's status), otherwise the error string. -/
inductive Outcome where
  | success (code : Nat)
  | failure (reason : String)
deriving DecidableEq, Repr

/-- Observable result of a whole `upload_with_retry` call: the outcome,
the sequence of back-off sleeps performed (`time.sleep(wait)` arguments,
in order), and the number of attempts actually made (calls of
`upload_fn`). -/
structure RetryResult where
  outcome : Outcome
  waits : List ℚ
  attempts : Nat
deriving DecidableEq, Repr

/-- The `for attempt in range(1, retries + 1)` loop of `upload_with_retry`
(src/rl_upload.py lines 225-264).  `remaining` is the number of loop
iterations still available (`retries - attempt + 1` at entry); when it is
exhausted the function returns `(None, f"{last_err} after {retries}
attempts")`.  On a retryable classification with `attempt < retries` the
loop sleeps `retry_delay * attempt` and continues with the next attempt;
with `attempt = retries` the loop ends and the exhaustion failure is
returned with the just-recorded error. -/
def uploadLoop (fn : Nat → AttemptResult) (retries : Nat) (retryDelay : ℚ)
    (lastErr : String) (attempt : Nat) : Nat → RetryResult
  | 0 => ⟨.failure s!"{lastErr} after {retries} attempts", [], 0⟩
  | remaining + 1 =>
      match classify (fn attempt) with
      | .success code => ⟨.success code, [], 1⟩
      | .terminal reason => ⟨.failure reason, [], 1⟩
      | .retryable e =>
          if attempt < retries then
            let rest := uploadLoop fn retries retryDelay e (attempt + 1) remaining
            ⟨rest.outcome, retryDelay * (attempt : ℚ) :: rest.waits, rest.attempts + 1⟩
          else
            ⟨.failure s!"{e} after {retries} attempts", [], 1⟩

/-- The function `upload_with_retry(upload_fn, file_path, retries, retry_delay)`
(src/rl_upload.py lines 218-264): starts with `last_err = "unknown
error"` and `attempt = 1`, with `retries` loop iterations available. -/
def upload_with_retry (fn : Nat → AttemptResult) (retries : Nat)
    (retryDelay : ℚ) : RetryResult :=
  uploadLoop fn retries retryDelay "unknown error" 1 retries

/-! ### File collection (`collect_files`, src/rl_upload.py lines 170-211)

`collect_files` matches each candidate's base name against the exclude
patterns with `fnmatch.fnmatch`.  On POSIX `os.path.normcase` is the
identity, so `fnmatch.fnmatch` is the case-sensitive glob match
(`*`, `?`, `[seq]`, `[!seq]`, with an unmatched `[` taken literally);
that matcher is embedded below.  Paths are modelled as strings; the
directory parts carried by entries are absolute paths, so
`os.path.abspath` is the identity in the model and `os.path.join` is
string concatenation with a `/` separator. -/

/-- Scan a bracket expression's remaining characters up to the closing
`]`, returning the content and what follows the `]`. -/
def scanBracketContent : List Char → Option (List Char × List Char)
  | [] => none
  | c :: rest =>
      if c = ']' then some ([], rest)
      else
        match scanBracketContent rest with
        | some (content, r) => some (c :: content, r)
        | none => none

/-- The content scan of a `[...]` bracket after the optional leading `!`
has been stripped: a `]` in first content position is literal content; the
content then runs to the next `]`. -/
def parseBracketCore (neg : Bool) (body : List Char) :
    Option (Bool × List Char × List Char) :=
  match body with
  | [] => none
  | c :: rest2 =>
      if c = ']' then
        (scanBracketContent rest2).map (fun cr => (neg, ']' :: cr.1, cr.2))
      else (scanBracketContent (c :: rest2)).map (fun cr => (neg, cr.1, cr.2))

/-- Parse the inside of a `[...]` glob bracket starting just after the
`[`: an optional leading `!` negates.  Returns `none` when no closing `]`
exists (the `[` is then a literal character). -/
def parseBracket (ps : List Char) : Option (Bool × List Char × List Char) :=
  match ps with
  | [] => none
  | c :: ps1 =>
      if c = '!' then parseBracketCore true ps1
      else parseBracketCore false (c :: ps1)

/-- Tokens of a compiled glob pattern. -/
inductive GlobTok where
  | star
  | anyChar
  | lit (c : Char)
  | bracket (neg : Bool) (content : List Char)
deriving DecidableEq, Repr

/-- Compile a glob pattern into tokens, mirroring `fnmatch.translate`:
`*` and `?` are wildcards, `[...]` is a (possibly negated) character set,
an unmatched `[` is a literal, and every other character matches itself.
The fuel argument only bounds recursion depth for structural recursion;
each step consumes at least one pattern character (`parseBracket` never
returns more than it was given), so with `fuel = l.length` — as
`compileGlob` passes — the `0` branch is never taken. -/
def compileGlobGo : Nat → List Char → List GlobTok
  | 0, _ => []
  | _, [] => []
  | fuel + 1, c :: ps =>
      if c = '*' then .star :: compileGlobGo fuel ps
      else if c = '?' then .anyChar :: compileGlobGo fuel ps
      else if c = '[' then
        match parseBracket ps with
        | some (neg, content, rest) => .bracket neg content :: compileGlobGo fuel rest
        | none => .lit '[' :: compileGlobGo fuel ps
      else .lit c :: compileGlobGo fuel ps

/-- Compile a whole glob pattern. -/
def compileGlob (l : List Char) : List GlobTok := compileGlobGo l.length l

/-- Membership of a character in a bracket expression's content, with
`a-b` ranges over code points and `-` in first or last position taken
literally, as in the regex classes produced by `fnmatch.translate`. -/
def inBracket : List Char → Char → Bool
  | a :: '-' :: b :: rest, c =>
      (a.toNat ≤ c.toNat && c.toNat ≤ b.toNat) || inBracket rest c
  | a :: rest, c => (a == c) || inBracket rest c
  | [], _ => false

/-- Match a compiled glob pattern against a string's characters; `*`
matches any (possibly empty) run of characters, `?` any single character,
as in the anchored regex produced by `fnmatch.translate`.  The fuel
argument only bounds recursion depth for structural recursion; every step
decreases `ts.length + s.length`, so with
`fuel = ts.length + s.length + 1` — as `matchToks` passes — the `0`
branch is never taken. -/
def matchToksGo : Nat → List GlobTok → List Char → Bool
  | 0, _, _ => false
  | _ + 1, [], [] => true
  | _ + 1, [], _ :: _ => false
  | fuel + 1, .star :: ts, [] => matchToksGo fuel ts []
  | fuel + 1, .star :: ts, c :: cs =>
      matchToksGo fuel ts (c :: cs) || matchToksGo fuel (.star :: ts) cs
  | _ + 1, .anyChar :: _, [] => false
  | fuel + 1, .anyChar :: ts, _ :: cs => matchToksGo fuel ts cs
  | _ + 1, .lit _ :: _, [] => false
  | fuel + 1, .lit a :: ts, c :: cs => (a == c) && matchToksGo fuel ts cs
  | _ + 1, .bracket _ _ :: _, [] => false
  | fuel + 1, .bracket neg content :: ts, c :: cs =>
      ((inBracket content c) != neg) && matchToksGo fuel ts cs

/-- Match a compiled glob pattern against a whole character list. -/
def matchToks (ts : List GlobTok) (s : List Char) : Bool :=
  matchToksGo (ts.length + s.length + 1) ts s

/-- Python's `fnmatch.fnmatch(name, pattern)` with POSIX `normcase` (the
identity): the case-sensitive glob match of the whole name. -/
def fnmatch (name pattern : String) : Bool :=
  matchToks (compileGlob pattern.toList) name.toList

/-- The test `any(fnmatch.fnmatch(fname, p) for p in excludes)`. -/
def matchesAny (name : String) (excludes : List String) : Bool :=
  excludes.any (fun p => fnmatch name p)

/-- Python's string `<=`: lexicographic comparison of code points
(`list.sort()` on paths orders by this). -/
def lexLe : List Char → List Char → Bool
  | [], _ => true
  | _ :: _, [] => false
  | a :: as, b :: bs =>
      if a.toNat < b.toNat then true
      else if b.toNat < a.toNat then false
      else lexLe as bs

/-- The ascending path order used by `files.sort()`. -/
def pathLe (a b : String) : Prop := lexLe a.toList b.toList = true

instance : DecidableRel pathLe := fun a b =>
  inferInstanceAs (Decidable (lexLe a.toList b.toList = true))

/-- The call `files.sort()`: sort paths ascending by the string order. -/
def sortPaths (l : List String) : List String := List.insertionSort pathLe l

/-- A regular-file candidate seen during directory traversal: the
(absolute) directory it was found in and its base name.  The `Bool`
pairing used below models the `os.path.isfile(full)` test: entries whose
flag is `false` are non-regular entries, silently skipped. -/
structure FileEntry where
  dir : String
  name : String
deriving DecidableEq, Repr

/-- The path `os.path.join(root, fname)` (with absolute `root`, so
`os.path.abspath` adds nothing). -/
def fullPath (e : FileEntry) : String := e.dir ++ "/" ++ e.name

/-- The shared loop body of both directory branches of `collect_files`
(src/rl_upload.py lines 190-208; the recursive `os.walk` branch and the
non-recursive `os.listdir` branch run this identical body over their
respective enumerations): skip non-regular entries, count an entry whose
base name matches an exclude pattern as skipped, otherwise append its
absolute path. -/
def collectLoop (excludes : List String) :
    List (FileEntry × Bool) → List String × Nat → List String × Nat
  | [], acc => acc
  | (e, isf) :: rest, acc =>
      if isf = false then collectLoop excludes rest acc
      else if matchesAny e.name excludes then
        collectLoop excludes rest (acc.1, acc.2 + 1)
      else collectLoop excludes rest (acc.1 ++ [fullPath e], acc.2)

/-- The directory case of `collect_files`: run the loop over the
traversal's entries starting from `files = []`, `skipped = 0`, then
`files.sort()`. -/
def collect_files_dir (listing : List (FileEntry × Bool))
    (excludes : List String) : List String × Nat :=
  let r := collectLoop excludes listing ([], 0)
  (sortPaths r.1, r.2)

/-- The single-file case of `collect_files` (src/rl_upload.py lines
176-181): if the base name matches any exclude pattern return
`([], 1)`, else the one-element list of the absolute path. -/
def collect_files_single (dir name : String) (excludes : List String) :
    List String × Nat :=
  if matchesAny name excludes then ([], 1)
  else ([dir ++ "/" ++ name], 0)

/-- Flatten `os.walk` output — a sequence of `(root, filenames)` groups,
each file name paired with its `os.path.isfile` status — into the entry
sequence the recursive loop iterates over. -/
def walkEntries (walk : List (String × List (String × Bool))) :
    List (FileEntry × Bool) :=
  walk.flatMap (fun rd => rd.2.map (fun fb => (⟨rd.1, fb.1⟩, fb.2)))

/-- The non-recursive directory branch: `os.listdir(target_path)` names,
each paired with its `os.path.isfile` status, all in the target
directory. -/
def collect_files_nonrec (dirPath : String) (names : List (String × Bool))
    (excludes : List String) : List String × Nat :=
  collect_files_dir (names.map (fun fb => (⟨dirPath, fb.1⟩, fb.2))) excludes

/-- The recursive directory branch: the loop over the flattened
`os.walk` enumeration. -/
def collect_files_rec (walk : List (String × List (String × Bool)))
    (excludes : List String) : List String × Nat :=
  collect_files_dir (walkEntries walk) excludes

/-- An entry the loop keeps: a regular file whose base name matches no
exclude pattern. -/
def keepEntry (excludes : List String) (eb : FileEntry × Bool) : Bool :=
  eb.2 && !(matchesAny eb.1.name excludes)

/-- An entry the loop counts as skipped: a regular file whose base name
matches some exclude pattern. -/
def skipEntry (excludes : List String) (eb : FileEntry × Bool) : Bool :=
  eb.2 && matchesAny eb.1.name excludes

/-! ### SDK method resolution (src/rl_upload.py lines 112-163)

An SDK method is modelled by what `resolve_upload_fn` and the caller
builders observe of it: the parameter-name list produced by
`inspect.signature`.  Invocations are modelled as descriptions of the
Python call performed (keyword vs. positional, and with which argument),
and the handle-based caller's run additionally records the file events of
its `with open(...)` block. -/

/-- An SDK upload method as seen through `inspect.signature`: its
parameter names, in order. -/
structure SDKMethod where
  params : List String
deriving DecidableEq, Repr

/-- The expression `params[1] if len(params) > 1 and params[0] == "self"
else (params[0] if params else None)` — the parameter the file argument
is passed under, shared by `_make_path_caller` and `_make_handle_caller`
(src/rl_upload.py lines 121 and 131). -/
def firstArgParam (params : List String) : Option String :=
  match params with
  | p0 :: p1 :: _ => if p0 = "self" then some p1 else some p0
  | [p0] => some p0
  | [] => none

/-- Description of the Python call a resolved caller performs on one
invocation. -/
inductive UploadCall where
  | kwPath (m : SDKMethod) (param : String) (filePath : String)
  | posPath (m : SDKMethod) (filePath : String)
  | kwHandle (m : SDKMethod) (param : String) (filePath : String)
  | posHandle (m : SDKMethod) (filePath : String)
deriving DecidableEq, Repr

/-- The callable built by `_make_path_caller` (src/rl_upload.py lines
112-124): the target method plus the path parameter name, resolved from
the signature once, when the callable is built. -/
structure PathCaller where
  method : SDKMethod
  pathParam : Option String
deriving DecidableEq, Repr

/-- The builder `_make_path_caller(method)`: inspect the signature now and capture the
resolved parameter name in the returned callable. -/
def make_path_caller (m : SDKMethod) : PathCaller :=
  ⟨m, firstArgParam m.params⟩

/-- Invoking a path caller on a file path: keyword call `m(**{p: fp})`
using the name captured at bind time, or positional `m(fp)` with the path
as the sole argument when no parameter name was available. -/
def callPath (pc : PathCaller) (fp : String) : UploadCall :=
  match pc.pathParam with
  | some p => .kwPath pc.method p fp
  | none => .posPath pc.method fp

/-- The callable built by `_make_handle_caller` (src/rl_upload.py lines
127-138): the target method plus the handle parameter name, resolved from
the signature at bind time. -/
structure HandleCaller where
  method : SDKMethod
  handleParam : Option String
deriving DecidableEq, Repr

/-- The builder `_make_handle_caller(method)`. -/
def make_handle_caller (m : SDKMethod) : HandleCaller :=
  ⟨m, firstArgParam m.params⟩

/-- Observable file events of one handle-caller invocation. -/
inductive FileEvent where
  | opened (path : String) (mode : String)
  | invoked (call : UploadCall)
  | closed (path : String)
deriving DecidableEq, Repr

/-- One invocation of the handle caller's `_upload(fp)` body:
`with open(fp, "rb") as fh: return m(fh)`.  The `with` statement opens the
file in binary read mode, invokes the method with the open handle
(keyword or positional per the bound parameter name), and closes the
handle when the block exits — whether the call returned a value or raised
— before the result or exception (`outcome`, supplied by the remote call)
propagates to the caller. -/
def callHandle (hc : HandleCaller) (fp : String)
    (outcome : Except String Nat) : List FileEvent × Except String Nat :=
  let call : UploadCall :=
    match hc.handleParam with
    | some p => .kwHandle hc.method p fp
    | none => .posHandle hc.method fp
  ([.opened fp "rb", .invoked call, .closed fp], outcome)

/-- The A1000 client object as probed by `resolve_upload_fn`
(src/rl_upload.py lines 141-163): for each of the four known entry-point
names, `getattr(a1000, name, None)`. -/
structure A1000Client where
  upload_sample_from_path : Option SDKMethod
  submit_file_from_path : Option SDKMethod
  upload_sample_from_file : Option SDKMethod
  submit_file_from_handle : Option SDKMethod
deriving DecidableEq, Repr

/-- A resolved upload operation: a path-based caller or a handle-based
caller. -/
inductive UploadFn where
  | pathCaller (pc : PathCaller)
  | handleCaller (hc : HandleCaller)
deriving DecidableEq, Repr

/-- A fatal error: a message printed to stderr and a non-zero process
exit code (`sys.exit(1)`). -/
structure FatalExit where
  exitCode : Nat
  message : String
deriving DecidableEq, Repr

/-- The stderr diagnostic printed when no known upload method exists
(src/rl_upload.py lines 159-162), naming every candidate checked. -/
def resolveErrorMessage : String :=
  "ERROR: Could not find a supported upload method on the A1000 SDK object.\n" ++
  "       Installed SDK may be too old or too new. Methods checked:\n" ++
  "       upload_sample_from_path, submit_file_from_path,\n" ++
  "       upload_sample_from_file, submit_file_from_handle\n"

/-- The resolver `resolve_upload_fn(a1000)`: probe the path-based entry points first,
in order, then the handle-based ones, binding a caller to the first method
present; if none of the four exists, exit fatally with the diagnostic. -/
def resolve_upload_fn (c : A1000Client) : Except FatalExit UploadFn :=
  match c.upload_sample_from_path with
  | some m => .ok (.pathCaller (make_path_caller m))
  | none =>
    match c.submit_file_from_path with
    | some m => .ok (.pathCaller (make_path_caller m))
    | none =>
      match c.upload_sample_from_file with
      | some m => .ok (.handleCaller (make_handle_caller m))
      | none =>
        match c.submit_file_from_handle with
        | some m => .ok (.handleCaller (make_handle_caller m))
        | none => .error ⟨1, resolveErrorMessage⟩

/-! ### The orchestrator (`main`, src/rl_upload.py lines 299-366)

Only the core sequencing after argument parsing and SDK construction is
modelled: resolve the upload operation (before touching any file),
collect the files, then — unless the list is empty — upload each file
through `upload_with_retry` and count successes and failures.  The
network's behaviour is an oracle giving each file's per-attempt result. -/

/-- The final counters printed by `print_summary`. -/
structure RunSummary where
  uploaded : Nat
  failed : Nat
  skipped : Nat
  total : Nat
deriving DecidableEq, Repr

/-- The per-file counting loop of `main` (src/rl_upload.py lines
345-356): `uploaded += 1` when `upload_with_retry` returned no error,
`failed += 1` otherwise. -/
def countOutcomes (results : List RetryResult) : Nat × Nat :=
  results.foldl
    (fun acc r =>
      match r.outcome with
      | .success _ => (acc.1 + 1, acc.2)
      | .failure _ => (acc.1, acc.2 + 1))
    (0, 0)

/-- The run core of `main` (src/rl_upload.py lines 320-366): resolve the
upload operation, collect the files (directory case), and either return
the empty summary with exit code 0, or upload every file and exit with
code 1 exactly when something failed.  `fn` is the network oracle: for
each file path, the result of each attempt. -/
def main_run (c : A1000Client) (listing : List (FileEntry × Bool))
    (excludes : List String) (fn : String → Nat → AttemptResult)
    (retries : Nat) (retryDelay : ℚ) : Except FatalExit (RunSummary × Nat) :=
  match resolve_upload_fn c with
  | .error e => .error e
  | .ok _ =>
    let col := collect_files_dir listing excludes
    let total_seen := col.1.length + col.2
    if col.1.isEmpty then .ok (⟨0, 0, col.2, total_seen⟩, 0)
    else
      let counts :=
        countOutcomes (col.1.map (fun f => upload_with_retry (fn f) retries retryDelay))
      .ok (⟨counts.1, counts.2, col.2, total_seen⟩,
        if counts.2 > 0 then 1 else 0)

/-- Each available loop iteration performs at most one attempt. -/
lemma uploadLoop_attempts_le (fn : Nat → AttemptResult) (retries : Nat)
    (retryDelay : ℚ) :
    ∀ rem lastErr attempt,
      (uploadLoop fn retries retryDelay lastErr attempt rem).attempts ≤ rem := by
  intro rem
  induction rem with
  | zero => intro lastErr attempt; simp [uploadLoop]
  | succ r ih =>
      intro lastErr attempt
      rw [uploadLoop]
      rcases classify (fn attempt) with code | e | reason
      · simp
      · by_cases h : attempt < retries
        · simpa [h] using Nat.succ_le_succ (ih e (attempt + 1))
        · simp [h]
      · simp

/-- When at least one loop iteration is available, at least one attempt is
made. -/
lemma uploadLoop_attempts_pos (fn : Nat → AttemptResult) (retries : Nat)
    (retryDelay : ℚ) (rem : Nat) (lastErr : String) (attempt : Nat) :
    1 ≤ (uploadLoop fn retries retryDelay lastErr attempt (rem + 1)).attempts := by
  rw [uploadLoop]
  rcases classify (fn attempt) with code | e | reason
  · simp
  · by_cases h : attempt < retries <;> simp [h]
  · simp

/-- The back-off waits of a run are linear in the attempt index: the run
starting at attempt number `attempt` sleeps
`retry_delay * attempt, retry_delay * (attempt+1), ...`, one wait per
attempt except the last. -/
lemma uploadLoop_waits_linear (fn : Nat → AttemptResult) (retries : Nat)
    (retryDelay : ℚ) :
    ∀ rem lastErr attempt, attempt + rem = retries + 1 →
      (uploadLoop fn retries retryDelay lastErr attempt rem).waits =
        (List.range ((uploadLoop fn retries retryDelay lastErr attempt rem).attempts - 1)).map
          (fun i => retryDelay * ((attempt + i : ℕ) : ℚ)) := by
  intro rem
  induction rem with
  | zero => intro lastErr attempt _; simp [uploadLoop]
  | succ r ih =>
      intro lastErr attempt hinv
      rw [uploadLoop]
      rcases classify (fn attempt) with code | e | reason
      · simp
      · by_cases h : attempt < retries
        · have hinv' : (attempt + 1) + r = retries + 1 := by omega
          have hr : 1 ≤ r := by omega
          obtain ⟨r', rfl⟩ : ∃ r', r = r' + 1 := ⟨r - 1, by omega⟩
          have hpos := uploadLoop_attempts_pos fn retries retryDelay r' e (attempt + 1)
          obtain ⟨m, hm⟩ : ∃ m,
              (uploadLoop fn retries retryDelay e (attempt + 1) (r' + 1)).attempts = m + 1 := by
            refine ⟨(uploadLoop fn retries retryDelay e (attempt + 1) (r' + 1)).attempts - 1, ?_⟩
            omega
          have hrest := ih e (attempt + 1) hinv'
          rw [hm] at hrest
          simp only [h, if_true, hrest, hm, Nat.add_sub_cancel,
            List.range_succ_eq_map, List.map_cons, List.map_map]
          congr 1
          apply List.map_congr_left
          intro i _
          simp only [Function.comp_apply, Nat.succ_eq_add_one]
          push_cast
          ring
        · simp [h]
      · simp

/-- One unfolding of the retry loop when the current attempt is classified
retryable: with attempts left, sleep `retry_delay * attempt` and continue;
otherwise return the exhaustion failure built from the just-recorded
error. -/
lemma uploadLoop_retryable_step (fn : Nat → AttemptResult) (retries : Nat)
    (retryDelay : ℚ) (lastErr : String) (attempt rem : Nat) (e : String)
    (h : classify (fn attempt) = .retryable e) :
    uploadLoop fn retries retryDelay lastErr attempt (rem + 1) =
      if attempt < retries then
        ⟨(uploadLoop fn retries retryDelay e (attempt + 1) rem).outcome,
         retryDelay * (attempt : ℚ) ::
           (uploadLoop fn retries retryDelay e (attempt + 1) rem).waits,
         (uploadLoop fn retries retryDelay e (attempt + 1) rem).attempts + 1⟩
      else ⟨.failure s!"{e} after {retries} attempts", [], 1⟩ := by
  rw [uploadLoop, h]

/-- With one remaining iteration the loop makes exactly one further attempt
and performs no sleep, whatever that attempt's classification is. -/
lemma uploadLoop_last_iteration (fn : Nat → AttemptResult) (retries : Nat)
    (retryDelay : ℚ) (lastErr : String) (attempt : Nat)
    (hlast : ¬ attempt < retries) :
    (uploadLoop fn retries retryDelay lastErr attempt (0 + 1)).waits = [] ∧
    (uploadLoop fn retries retryDelay lastErr attempt (0 + 1)).attempts = 1 := by
  rw [uploadLoop]
  rcases classify (fn attempt) with code | e | reason
  · simp
  · simp [hlast]
  · simp

/-- Claim C1: inside `upload_with_retry`, an attempt whose call returns
normally with a status in `[200, 300)` ends the call immediately with
success carrying that status (no sleeps, one attempt); a normally returned
status of 429 or `>= 500` is classified retryable; and any other normally
returned status `>= 400` ends the call immediately with the terminal
failure reason `"HTTP <status>"`, with no sleeps and no further
attempts. -/
theorem claim_C1 :
    (∀ (fn : Nat → AttemptResult) (retries : Nat) (retryDelay : ℚ)
        (lastErr : String) (attempt rem code : Nat),
      fn attempt = .status code → 200 ≤ code → code < 300 →
      uploadLoop fn retries retryDelay lastErr attempt (rem + 1) =
        ⟨.success code, [], 1⟩) ∧
    (∀ code : Nat, code = 429 ∨ 500 ≤ code →
      classify (.status code) = .retryable s!"HTTP {code}") ∧
    (∀ (fn : Nat → AttemptResult) (retries : Nat) (retryDelay : ℚ)
        (lastErr : String) (attempt rem code : Nat),
      fn attempt = .status code → 400 ≤ code → code ≠ 429 → code < 500 →
      uploadLoop fn retries retryDelay lastErr attempt (rem + 1) =
        ⟨.failure s!"HTTP {code}", [], 1⟩) := by
  refine ⟨?_, ?_, ?_⟩
  · intro fn retries retryDelay lastErr attempt rem code h h2 h3
    rw [uploadLoop, h]
    simp [classify, h2, h3]
  · intro code h
    have hA : ¬(200 ≤ code ∧ code < 300) := by omega
    rcases h with rfl | h5
    · simp [classify]
    · simp [classify, hA, h5]
  · intro fn retries retryDelay lastErr attempt rem code h h4 hne h5
    have hA : ¬(200 ≤ code ∧ code < 300) := by omega
    have hB : ¬(code = 429 ∨ 500 ≤ code) := by omega
    rw [uploadLoop, h]
    simp [classify, hA, hB]

/-- Witness for C1 at concrete inputs: HTTP 204 succeeds immediately,
HTTP 503 is classified retryable, HTTP 404 fails immediately with zero
retries. -/
theorem claim_C1_witness :
    uploadLoop (fun _ => .status 204) 3 5 "unknown error" 1 (0 + 1) =
      ⟨.success 204, [], 1⟩ ∧
    classify (.status 503) = .retryable "HTTP 503" ∧
    uploadLoop (fun _ => .status 404) 3 5 "unknown error" 1 (0 + 1) =
      ⟨.failure "HTTP 404", [], 1⟩ :=
  ⟨claim_C1.1 (fun _ => .status 204) 3 5 "unknown error" 1 0 204 rfl
      (by decide) (by decide),
   claim_C1.2.1 503 (by decide),
   claim_C1.2.2 (fun _ => .status 404) 3 5 "unknown error" 1 0 404 rfl
      (by decide) (by decide) (by decide)⟩

/-- Claim C10: a normally returned status in `[300, 400)` — a range the
spec leaves unstated — takes the same terminal branch as a non-429 4xx:
`upload_with_retry` returns immediately with failure reason
`"HTTP <status>"`, performing no sleep and no further attempt. -/
theorem claim_C10 :
    ∀ (fn : Nat → AttemptResult) (retries : Nat) (retryDelay : ℚ)
        (lastErr : String) (attempt rem code : Nat),
      fn attempt = .status code → 300 ≤ code → code < 400 →
      uploadLoop fn retries retryDelay lastErr attempt (rem + 1) =
        ⟨.failure s!"HTTP {code}", [], 1⟩ := by
  intro fn retries retryDelay lastErr attempt rem code h h3 h4
  have hA : ¬(200 ≤ code ∧ code < 300) := by omega
  have hB : ¬(code = 429 ∨ 500 ≤ code) := by omega
  rw [uploadLoop, h]
  simp [classify, hA, hB]

/-- Witness for C10: HTTP 301 on the first attempt fails immediately with
reason `"HTTP 301"`, no sleeps, one attempt. -/
theorem claim_C10_witness :
    uploadLoop (fun _ => .status 301) 3 5 "unknown error" 1 (2 + 1) =
      ⟨.failure "HTTP 301", [], 1⟩ :=
  claim_C10 (fun _ => .status 301) 3 5 "unknown error" 1 2 301 rfl
    (by decide) (by decide)

/-- Claim C3: for an attempt raising an exception other than a timeout or
connection error: an embedded response status of 429 or `>= 500` is
classified retryable, with the recorded error noting the wrapping
exception type (`"HTTP <code> (via <ExcType>)"`); an embedded response
with any other status ends the call immediately with terminal failure
`"HTTP <status>"`; and when no embedded response with a status code is
present the call ends immediately with the exception's message as the
failure reason, with no retry. -/
theorem claim_C3 :
    (∀ (msg excType : String) (code : Nat), code = 429 ∨ 500 ≤ code →
      classify (.otherExc msg excType (some (some code))) =
        .retryable s!"HTTP {code} (via {excType})") ∧
    (∀ (fn : Nat → AttemptResult) (retries : Nat) (retryDelay : ℚ)
        (lastErr msg excType : String) (attempt rem code : Nat),
      fn attempt = .otherExc msg excType (some (some code)) →
      ¬(code = 429 ∨ 500 ≤ code) →
      uploadLoop fn retries retryDelay lastErr attempt (rem + 1) =
        ⟨.failure s!"HTTP {code}", [], 1⟩) ∧
    (∀ (fn : Nat → AttemptResult) (retries : Nat) (retryDelay : ℚ)
        (lastErr msg excType : String) (attempt rem : Nat)
        (resp : Option (Option Nat)),
      fn attempt = .otherExc msg excType resp →
      (resp = none ∨ resp = some none) →
      uploadLoop fn retries retryDelay lastErr attempt (rem + 1) =
        ⟨.failure msg, [], 1⟩) := by
  refine ⟨?_, ?_, ?_⟩
  · intro msg excType code h
    simp only [classify]
    rw [if_pos h]
  · intro fn retries retryDelay lastErr msg excType attempt rem code h hB
    rw [uploadLoop, h]
    simp [classify, hB]
  · intro fn retries retryDelay lastErr msg excType attempt rem resp h hresp
    rcases hresp with rfl | rfl <;> (rw [uploadLoop, h]; simp [classify])

/-- Witness for C3 at concrete inputs: a wrapped 502 is retryable and
records the wrapping type, a wrapped 403 fails immediately, and an
exception with no embedded status fails immediately with its message. -/
theorem claim_C3_witness :
    classify (.otherExc "err" "HTTPError" (some (some 502))) =
      .retryable "HTTP 502 (via HTTPError)" ∧
    uploadLoop (fun _ => .otherExc "err" "HTTPError" (some (some 403))) 3 5
        "unknown error" 1 (2 + 1) = ⟨.failure "HTTP 403", [], 1⟩ ∧
    uploadLoop (fun _ => .otherExc "boom" "ValueError" none) 3 5
        "unknown error" 1 (2 + 1) = ⟨.failure "boom", [], 1⟩ :=
  ⟨claim_C3.1 "err" "HTTPError" 502 (by decide),
   claim_C3.2.1 (fun _ => .otherExc "err" "HTTPError" (some (some 403))) 3 5
     "unknown error" "err" "HTTPError" 1 2 403 rfl (by decide),
   claim_C3.2.2 (fun _ => .otherExc "boom" "ValueError" none) 3 5
     "unknown error" "boom" "ValueError" 1 2 none rfl (Or.inl rfl)⟩

/-- Claim C2: on a retryable classification at attempt `k`, if
`k < retries` the loop sleeps exactly `retry_delay * k` seconds and
retries with the recorded error, otherwise it returns the terminal failure
`"<last error> after <retries> attempts"`; over a whole run the waits are
`retry_delay * 1, retry_delay * 2, ...` (linear, not exponential), with
`retries = 3` and `retry_delay = 5` the waits before successive attempts
are `5, 10`; and at most `retries` attempts are ever made. -/
theorem claim_C2 :
    (∀ (fn : Nat → AttemptResult) (retries : Nat) (retryDelay : ℚ)
        (lastErr : String) (attempt rem : Nat) (e : String),
      classify (fn attempt) = .retryable e →
      uploadLoop fn retries retryDelay lastErr attempt (rem + 1) =
        if attempt < retries then
          ⟨(uploadLoop fn retries retryDelay e (attempt + 1) rem).outcome,
           retryDelay * (attempt : ℚ) ::
             (uploadLoop fn retries retryDelay e (attempt + 1) rem).waits,
           (uploadLoop fn retries retryDelay e (attempt + 1) rem).attempts + 1⟩
        else ⟨.failure s!"{e} after {retries} attempts", [], 1⟩) ∧
    (∀ (fn : Nat → AttemptResult) (retries : Nat) (retryDelay : ℚ),
      (upload_with_retry fn retries retryDelay).waits =
        (List.range ((upload_with_retry fn retries retryDelay).attempts - 1)).map
          (fun i => retryDelay * ((1 + i : ℕ) : ℚ))) ∧
    (∀ (fn : Nat → AttemptResult) (e₁ e₂ : String),
      classify (fn 1) = .retryable e₁ → classify (fn 2) = .retryable e₂ →
      (upload_with_retry fn 3 5).waits = [5, 10] ∧
      (upload_with_retry fn 3 5).attempts = 3) ∧
    (∀ (fn : Nat → AttemptResult) (retries : Nat) (retryDelay : ℚ),
      (upload_with_retry fn retries retryDelay).attempts ≤ retries) := by
  refine ⟨?_, ?_, ?_, ?_⟩
  · intro fn retries retryDelay lastErr attempt rem e h
    exact uploadLoop_retryable_step fn retries retryDelay lastErr attempt rem e h
  · intro fn retries retryDelay
    exact uploadLoop_waits_linear fn retries retryDelay retries "unknown error" 1
      (by omega)
  · intro fn e₁ e₂ h1 h2
    have e0 : upload_with_retry fn 3 5 =
        uploadLoop fn 3 5 "unknown error" 1 (2 + 1) := rfl
    have s1 := uploadLoop_retryable_step fn 3 5 "unknown error" 1 2 e₁ h1
    rw [if_pos (by norm_num)] at s1
    have s2 := uploadLoop_retryable_step fn 3 5 e₁ 2 1 e₂ h2
    rw [if_pos (by norm_num)] at s2
    have s3 := uploadLoop_last_iteration fn 3 5 e₂ 3 (by norm_num)
    norm_num at s1 s2 s3 e0
    constructor
    · rw [e0, s1]
      simp [s2, s3.1]
    · rw [e0, s1]
      simp [s2, s3.2]
  · intro fn retries retryDelay
    exact uploadLoop_attempts_le fn retries retryDelay retries "unknown error" 1

/-- Witness for C2: with every attempt answering HTTP 503 and
`retries = 3`, `retry_delay = 5`, the run sleeps `5, 10`, makes exactly 3
attempts (and so at most 3), and with one loop iteration left at attempt 3
a retryable classification yields the exhaustion failure. -/
theorem claim_C2_witness :
    (upload_with_retry (fun _ => .status 503) 3 5).waits = [5, 10] ∧
    (upload_with_retry (fun _ => .status 503) 3 5).attempts = 3 ∧
    (upload_with_retry (fun _ => .status 503) 3 5).attempts ≤ 3 ∧
    uploadLoop (fun _ => .status 503) 3 5 "HTTP 503" 3 (0 + 1) =
      ⟨.failure "HTTP 503 after 3 attempts", [], 1⟩ := by
  have hc : classify ((fun _ => AttemptResult.status 503) 1) =
      .retryable "HTTP 503" := by decide
  have hc2 : classify ((fun _ => AttemptResult.status 503) 2) =
      .retryable "HTTP 503" := by decide
  have h3 := claim_C2.2.2.1 (fun _ => .status 503) "HTTP 503" "HTTP 503" hc hc2
  have hstep := claim_C2.1 (fun _ => .status 503) 3 5 "HTTP 503" 3 0 "HTTP 503"
    (by decide)
  rw [if_neg (by decide)] at hstep
  exact ⟨h3.1, h3.2, le_of_eq h3.2, hstep⟩

/-! ### Properties of the path order and of collection -/

lemma scanBracketContent_length :
    ∀ (l content r : List Char), scanBracketContent l = some (content, r) →
      r.length < l.length := by
  intro l
  induction l with
  | nil => intro content r h; simp [scanBracketContent] at h
  | cons c rest ih =>
      intro content r h
      rw [scanBracketContent] at h
      by_cases hc : c = ']'
      · rw [if_pos hc] at h
        simp only [Option.some.injEq, Prod.mk.injEq] at h
        obtain ⟨-, h2⟩ := h
        simp [← h2]
      · rw [if_neg hc] at h
        rcases hrec : scanBracketContent rest with _ | ⟨content', r'⟩ <;>
          rw [hrec] at h
        · simp at h
        · simp only [Option.some.injEq, Prod.mk.injEq] at h
          obtain ⟨-, h2⟩ := h
          have := ih content' r' hrec
          rw [h2] at this
          simp
          omega

lemma parseBracketCore_length (neg neg' : Bool) (body content rest : List Char)
    (h : parseBracketCore neg body = some (neg', content, rest)) :
    rest.length ≤ body.length := by
  rcases body with _ | ⟨c, rest2⟩
  · simp [parseBracketCore] at h
  · rw [parseBracketCore] at h
    by_cases hc : c = ']'
    · rw [if_pos hc] at h
      rcases hscan : scanBracketContent rest2 with _ | ⟨cr1, r⟩ <;> rw [hscan] at h
      · simp at h
      · simp at h
        obtain ⟨-, -, h3⟩ := h
        have := scanBracketContent_length rest2 cr1 r hscan
        subst h3
        simp
        omega
    · rw [if_neg hc] at h
      rcases hscan : scanBracketContent (c :: rest2) with _ | ⟨cr1, r⟩ <;>
        rw [hscan] at h
      · simp at h
      · simp at h
        obtain ⟨-, -, h3⟩ := h
        have := scanBracketContent_length (c :: rest2) cr1 r hscan
        subst h3
        omega

lemma parseBracket_length (ps : List Char) (neg : Bool) (content rest : List Char)
    (h : parseBracket ps = some (neg, content, rest)) : rest.length ≤ ps.length := by
  rcases ps with _ | ⟨c, ps1⟩
  · simp [parseBracket] at h
  · rw [parseBracket] at h
    by_cases hc : c = '!'
    · rw [if_pos hc] at h
      have := parseBracketCore_length true neg ps1 content rest h
      simp
      omega
    · rw [if_neg hc] at h
      exact parseBracketCore_length false neg (c :: ps1) content rest h

lemma lexLe_total : ∀ as bs : List Char, lexLe as bs = true ∨ lexLe bs as = true := by
  intro as
  induction as with
  | nil => intro bs; left; simp [lexLe]
  | cons a as ih =>
      intro bs
      rcases bs with _ | ⟨b, bs⟩
      · right; simp [lexLe]
      · rw [lexLe, lexLe]
        by_cases h1 : a.toNat < b.toNat
        · left; simp [h1]
        · by_cases h2 : b.toNat < a.toNat
          · right; simp [h2]
          · simp [h1, h2]
            exact ih bs

lemma lexLe_trans : ∀ as bs cs : List Char,
    lexLe as bs = true → lexLe bs cs = true → lexLe as cs = true := by
  intro as
  induction as with
  | nil => intros; simp [lexLe]
  | cons a as ih =>
      intro bs cs h1 h2
      rcases bs with _ | ⟨b, bs⟩
      · simp [lexLe] at h1
      · rcases cs with _ | ⟨c, cs⟩
        · simp [lexLe] at h2
        · rw [lexLe] at h1 h2 ⊢
          by_cases hab : a.toNat < b.toNat
          · by_cases hbc : b.toNat < c.toNat
            · have hac : a.toNat < c.toNat := by omega
              simp [hac]
            · by_cases hcb : c.toNat < b.toNat
              · simp [hbc, hcb] at h2
              · have hac : a.toNat < c.toNat := by omega
                simp [hac]
          · by_cases hba : b.toNat < a.toNat
            · simp [hab, hba] at h1
            · simp [hab, hba] at h1
              by_cases hbc : b.toNat < c.toNat
              · have hac : a.toNat < c.toNat := by omega
                simp [hac]
              · by_cases hcb : c.toNat < b.toNat
                · simp [hbc, hcb] at h2
                · simp [hbc, hcb] at h2
                  have hac1 : ¬ a.toNat < c.toNat := by omega
                  have hac2 : ¬ c.toNat < a.toNat := by omega
                  simp [hac1, hac2]
                  exact ih bs cs h1 h2

lemma lexLe_antisymm : ∀ as bs : List Char,
    lexLe as bs = true → lexLe bs as = true → as = bs := by
  intro as
  induction as with
  | nil =>
      intro bs h1 h2
      rcases bs with _ | ⟨b, bs⟩
      · rfl
      · simp [lexLe] at h2
  | cons a as ih =>
      intro bs h1 h2
      rcases bs with _ | ⟨b, bs⟩
      · simp [lexLe] at h1
      · rw [lexLe] at h1 h2
        by_cases hab : a.toNat < b.toNat
        · have hba : ¬ b.toNat < a.toNat := by omega
          simp [hab, hba] at h2
        · by_cases hba : b.toNat < a.toNat
          · simp [hab, hba] at h1
          · simp [hab, hba] at h1 h2
            have hn : a.toNat = b.toNat := by omega
            have hchar : a = b := Char.ext (UInt32.ext hn)
            rw [hchar, ih bs h1 h2]

instance : IsTotal String pathLe :=
  ⟨fun a b => lexLe_total a.toList b.toList⟩

instance : IsTrans String pathLe :=
  ⟨fun _ _ _ h1 h2 => lexLe_trans _ _ _ h1 h2⟩

instance : IsAntisymm String pathLe :=
  ⟨fun _ _ h1 h2 => String.ext (lexLe_antisymm _ _ h1 h2)⟩

lemma sortPaths_sorted (l : List String) : List.Sorted pathLe (sortPaths l) :=
  List.sorted_insertionSort pathLe l

lemma sortPaths_perm (l : List String) : (sortPaths l).Perm l :=
  List.perm_insertionSort pathLe l

/-- Sorting two lists of paths that are permutations of each other gives
the same result: the ascending order is unique. -/
lemma sortPaths_eq_of_perm {l₁ l₂ : List String} (h : l₁.Perm l₂) :
    sortPaths l₁ = sortPaths l₂ :=
  List.eq_of_perm_of_sorted ((sortPaths_perm l₁).trans (h.trans (sortPaths_perm l₂).symm))
    (sortPaths_sorted l₁) (sortPaths_sorted l₂)

/-- The collection loop appends, in traversal order, the full paths of
kept entries, and adds one to the skip counter per skipped entry. -/
lemma collectLoop_spec (excludes : List String) :
    ∀ (listing : List (FileEntry × Bool)) (acc : List String × Nat),
      collectLoop excludes listing acc =
        (acc.1 ++ (listing.filter (keepEntry excludes)).map (fun eb => fullPath eb.1),
         acc.2 + listing.countP (skipEntry excludes)) := by
  intro listing
  induction listing with
  | nil => intro acc; simp [collectLoop]
  | cons eb rest ih =>
      intro acc
      obtain ⟨e, isf⟩ := eb
      rw [collectLoop]
      rcases isf with _ | _
      · rw [if_pos rfl, ih]
        simp [keepEntry, skipEntry, List.filter_cons, List.countP_cons]
      · rw [if_neg (by simp)]
        by_cases hm : matchesAny e.name excludes
        · rw [if_pos hm, ih]
          simp only [keepEntry, skipEntry, List.filter_cons, List.countP_cons, hm]
          simp
          omega
        · rw [if_neg hm, ih]
          simp only [keepEntry, skipEntry, List.filter_cons, List.countP_cons, hm]
          simp [List.append_assoc]

/-- The result of `collect_files` in the directory case: the sorted kept paths and the
count of skipped entries. -/
lemma collect_files_dir_eq (listing : List (FileEntry × Bool))
    (excludes : List String) :
    collect_files_dir listing excludes =
      (sortPaths ((listing.filter (keepEntry excludes)).map (fun eb => fullPath eb.1)),
       listing.countP (skipEntry excludes)) := by
  rw [collect_files_dir, collectLoop_spec excludes listing ([], 0)]
  simp

/-- Claim C4: in every mode the returned file list is sorted ascending by
absolute path, and collection is deterministic: enumerating the same
unchanged tree's entries in any order (any permutation) yields the same
ordered output and the same skipped count, in both the directory case and
the recursive case. -/
theorem claim_C4 :
    (∀ (listing : List (FileEntry × Bool)) (excludes : List String),
      List.Sorted pathLe (collect_files_dir listing excludes).1) ∧
    (∀ (dir name : String) (excludes : List String),
      List.Sorted pathLe (collect_files_single dir name excludes).1) ∧
    (∀ (walk : List (String × List (String × Bool))) (excludes : List String),
      List.Sorted pathLe (collect_files_rec walk excludes).1) ∧
    (∀ (listing listing' : List (FileEntry × Bool)) (excludes : List String),
      listing.Perm listing' →
      collect_files_dir listing excludes = collect_files_dir listing' excludes) ∧
    (∀ (walk walk' : List (String × List (String × Bool))) (excludes : List String),
      (walkEntries walk).Perm (walkEntries walk') →
      collect_files_rec walk excludes = collect_files_rec walk' excludes) := by
  have hsorted : ∀ (listing : List (FileEntry × Bool)) (excludes : List String),
      List.Sorted pathLe (collect_files_dir listing excludes).1 := by
    intro listing excludes
    rw [collect_files_dir_eq]
    exact sortPaths_sorted _
  have hdet : ∀ (listing listing' : List (FileEntry × Bool)) (excludes : List String),
      listing.Perm listing' →
      collect_files_dir listing excludes = collect_files_dir listing' excludes := by
    intro listing listing' excludes hperm
    rw [collect_files_dir_eq, collect_files_dir_eq]
    refine Prod.ext ?_ ?_
    · exact sortPaths_eq_of_perm ((hperm.filter (keepEntry excludes)).map _)
    · exact hperm.countP_eq (skipEntry excludes)
  refine ⟨hsorted, ?_, ?_, hdet, ?_⟩
  · intro dir name excludes
    rw [collect_files_single]
    by_cases hm : matchesAny name excludes <;> simp [hm]
  · intro walk excludes
    exact hsorted (walkEntries walk) excludes
  · intro walk walk' excludes hperm
    exact hdet (walkEntries walk) (walkEntries walk') excludes hperm

/-- Witness for C4: a concrete two-entry listing and its reversal collect
to the same sorted output with the same skipped count, and that output is
sorted. -/
theorem claim_C4_witness :
    List.Sorted pathLe
      (collect_files_dir [(⟨"/r", "b.exe"⟩, true), (⟨"/r", "a.txt"⟩, true)]
        ["*.tmp"]).1 ∧
    List.Sorted pathLe (collect_files_single "/data" "notes.txt" ["*.tmp"]).1 ∧
    List.Sorted pathLe
      (collect_files_rec [("/r", [("z.txt", true), ("a.txt", true)])] []).1 ∧
    collect_files_dir [(⟨"/r", "b.exe"⟩, true), (⟨"/r", "a.txt"⟩, true)] ["*.tmp"] =
      collect_files_dir [(⟨"/r", "a.txt"⟩, true), (⟨"/r", "b.exe"⟩, true)] ["*.tmp"] ∧
    collect_files_rec [("/r", [("z.txt", true)]), ("/s", [("a.txt", true)])] [] =
      collect_files_rec [("/s", [("a.txt", true)]), ("/r", [("z.txt", true)])] [] :=
  ⟨claim_C4.1 [(⟨"/r", "b.exe"⟩, true), (⟨"/r", "a.txt"⟩, true)] ["*.tmp"],
   claim_C4.2.1 "/data" "notes.txt" ["*.tmp"],
   claim_C4.2.2.1 [("/r", [("z.txt", true), ("a.txt", true)])] [],
   claim_C4.2.2.2.1 [(⟨"/r", "b.exe"⟩, true), (⟨"/r", "a.txt"⟩, true)]
     [(⟨"/r", "a.txt"⟩, true), (⟨"/r", "b.exe"⟩, true)] ["*.tmp"] (by decide),
   claim_C4.2.2.2.2 [("/r", [("z.txt", true)]), ("/s", [("a.txt", true)])]
     [("/s", [("a.txt", true)]), ("/r", [("z.txt", true)])] [] (by decide)⟩

/-- Claim C5: a visited regular file is excluded exactly when its base
name matches at least one exclude pattern (case-sensitive glob
semantics), in the single-file case and in both directory cases (whose
shared loop `collect_files_dir` covers the non-recursive and recursive
enumerations): the returned list is precisely the sorted full paths of
the regular entries whose base name matches no pattern, the skipped count
counts exactly the regular entries whose base name matches some pattern,
and patterns are never matched against intermediate path segments — a
regular entry whose base name matches no pattern is in the output
whatever its directory is, so a pattern matching only a directory name
excludes no file inside that directory. -/
theorem claim_C5 :
    (∀ (dir name : String) (excludes : List String),
      (matchesAny name excludes = true →
        collect_files_single dir name excludes = ([], 1)) ∧
      (matchesAny name excludes = false →
        collect_files_single dir name excludes = ([dir ++ "/" ++ name], 0))) ∧
    (∀ (listing : List (FileEntry × Bool)) (excludes : List String),
      (collect_files_dir listing excludes).1 =
        sortPaths ((listing.filter (keepEntry excludes)).map
          (fun eb => fullPath eb.1)) ∧
      (collect_files_dir listing excludes).2 =
        listing.countP (skipEntry excludes)) ∧
    (∀ (listing : List (FileEntry × Bool)) (excludes : List String)
        (e : FileEntry),
      (e, true) ∈ listing → matchesAny e.name excludes = false →
      fullPath e ∈ (collect_files_dir listing excludes).1) ∧
    (fnmatch "a.tmp" "*.tmp" = true ∧ fnmatch "A.TMP" "*.tmp" = false ∧
     fnmatch "file.txt" "file.tx?" = true ∧ fnmatch "b.dat" "[abc].dat" = true ∧
     fnmatch "d.dat" "[abc].dat" = false ∧ fnmatch "a.txt" "tmp" = false) := by
  refine ⟨?_, ?_, ?_, by decide⟩
  · intro dir name excludes
    constructor <;> intro hm <;> rw [collect_files_single] <;> simp [hm]
  · intro listing excludes
    rw [collect_files_dir_eq]
    exact ⟨rfl, rfl⟩
  · intro listing excludes e hmem hm
    rw [collect_files_dir_eq]
    refine (sortPaths_perm _).mem_iff.mpr ?_
    refine List.mem_map.mpr ⟨(e, true), ?_, rfl⟩
    refine List.mem_filter.mpr ⟨hmem, ?_⟩
    simp [keepEntry, hm]

/-- Witness for C5: the pattern `*.tmp` excludes `notes.tmp` and keeps
`notes.txt` in the single-file case, and the pattern `tmp`, which matches
the directory name `/r/tmp` but not the base name `a.txt`, does not
exclude `/r/tmp/a.txt` from a directory collection. -/
theorem claim_C5_witness :
    collect_files_single "/data" "notes.tmp" ["*.tmp"] = ([], 1) ∧
    collect_files_single "/data" "notes.txt" ["*.tmp"] =
      (["/data" ++ "/" ++ "notes.txt"], 0) ∧
    (collect_files_dir [(⟨"/r/tmp", "a.txt"⟩, true)] ["tmp"]).1 =
      sortPaths (([(⟨"/r/tmp", "a.txt"⟩, true)].filter (keepEntry ["tmp"])).map
        (fun eb => fullPath eb.1)) ∧
    fullPath ⟨"/r/tmp", "a.txt"⟩ ∈
      (collect_files_dir [(⟨"/r/tmp", "a.txt"⟩, true)] ["tmp"]).1 :=
  ⟨(claim_C5.1 "/data" "notes.tmp" ["*.tmp"]).1 (by decide),
   (claim_C5.1 "/data" "notes.txt" ["*.tmp"]).2 (by decide),
   (claim_C5.2.1 [(⟨"/r/tmp", "a.txt"⟩, true)] ["tmp"]).1,
   claim_C5.2.2.1 [(⟨"/r/tmp", "a.txt"⟩, true)] ["tmp"] ⟨"/r/tmp", "a.txt"⟩
     (by decide) (by decide)⟩

/-- Claim C6: `resolve_upload_fn` probes the client in the fixed order
`upload_sample_from_path`, `submit_file_from_path`,
`upload_sample_from_file`, `submit_file_from_handle` — both path-based
entry points before either handle-based one — and binds the first method
present; when none of the four exists it fails fatally with exit code 1
(before any file is uploaded: the whole run returns that fatal error) and
its diagnostic names all four candidate entry points. -/
theorem claim_C6 :
    (∀ (c : A1000Client) (m : SDKMethod),
      c.upload_sample_from_path = some m →
      resolve_upload_fn c = .ok (.pathCaller (make_path_caller m))) ∧
    (∀ (c : A1000Client) (m : SDKMethod),
      c.upload_sample_from_path = none → c.submit_file_from_path = some m →
      resolve_upload_fn c = .ok (.pathCaller (make_path_caller m))) ∧
    (∀ (c : A1000Client) (m : SDKMethod),
      c.upload_sample_from_path = none → c.submit_file_from_path = none →
      c.upload_sample_from_file = some m →
      resolve_upload_fn c = .ok (.handleCaller (make_handle_caller m))) ∧
    (∀ (c : A1000Client) (m : SDKMethod),
      c.upload_sample_from_path = none → c.submit_file_from_path = none →
      c.upload_sample_from_file = none → c.submit_file_from_handle = some m →
      resolve_upload_fn c = .ok (.handleCaller (make_handle_caller m))) ∧
    (∀ c : A1000Client,
      c.upload_sample_from_path = none → c.submit_file_from_path = none →
      c.upload_sample_from_file = none → c.submit_file_from_handle = none →
      resolve_upload_fn c = .error ⟨1, resolveErrorMessage⟩ ∧
      ∀ (listing : List (FileEntry × Bool)) (excludes : List String)
          (fn : String → Nat → AttemptResult) (retries : Nat) (retryDelay : ℚ),
        main_run c listing excludes fn retries retryDelay =
          .error ⟨1, resolveErrorMessage⟩) ∧
    ("upload_sample_from_path".toList <:+: resolveErrorMessage.toList ∧
     "submit_file_from_path".toList <:+: resolveErrorMessage.toList ∧
     "upload_sample_from_file".toList <:+: resolveErrorMessage.toList ∧
     "submit_file_from_handle".toList <:+: resolveErrorMessage.toList ∧
     (1 : Nat) ≠ 0) := by
  refine ⟨?_, ?_, ?_, ?_, ?_, by set_option maxRecDepth 4000 in decide⟩
  · intro c m h1
    rw [resolve_upload_fn, h1]
  · intro c m h1 h2
    rw [resolve_upload_fn, h1, h2]
  · intro c m h1 h2 h3
    rw [resolve_upload_fn, h1, h2, h3]
  · intro c m h1 h2 h3 h4
    rw [resolve_upload_fn, h1, h2, h3, h4]
  · intro c h1 h2 h3 h4
    have hres : resolve_upload_fn c = .error ⟨1, resolveErrorMessage⟩ := by
      rw [resolve_upload_fn, h1, h2, h3, h4]
    refine ⟨hres, ?_⟩
    intro listing excludes fn retries retryDelay
    rw [main_run, hres]

/-- Witness for C6: a client exposing both a path-based and a handle-based
method binds the path-based one; a client exposing only the last
handle-based method binds it; a client with none fails fatally with exit
code 1. -/
theorem claim_C6_witness :
    resolve_upload_fn
        ⟨some ⟨["self", "file_path"]⟩, none, some ⟨["self", "file_source"]⟩, none⟩ =
      .ok (.pathCaller (make_path_caller ⟨["self", "file_path"]⟩)) ∧
    resolve_upload_fn ⟨none, none, none, some ⟨["self", "file_handle"]⟩⟩ =
      .ok (.handleCaller (make_handle_caller ⟨["self", "file_handle"]⟩)) ∧
    resolve_upload_fn ⟨none, none, none, none⟩ = .error ⟨1, resolveErrorMessage⟩ ∧
    main_run ⟨none, none, none, none⟩ [] [] (fun _ _ => .status 200) 3 5 =
      .error ⟨1, resolveErrorMessage⟩ :=
  ⟨claim_C6.1 ⟨some ⟨["self", "file_path"]⟩, none, some ⟨["self", "file_source"]⟩, none⟩
      ⟨["self", "file_path"]⟩ rfl,
   claim_C6.2.2.2.1 ⟨none, none, none, some ⟨["self", "file_handle"]⟩⟩
      ⟨["self", "file_handle"]⟩ rfl rfl rfl rfl,
   (claim_C6.2.2.2.2.1 ⟨none, none, none, none⟩ rfl rfl rfl rfl).1,
   (claim_C6.2.2.2.2.1 ⟨none, none, none, none⟩ rfl rfl rfl rfl).2
     [] [] (fun _ _ => .status 200) 3 5⟩

/-- Claim C7: the caller built by `_make_path_caller` carries the path
parameter name resolved from the method's signature when it is built, so
every invocation — for any file path — performs the call determined by
that bind-time introspection; and when introspection yields no parameter
name (exactly when the signature has no parameters) the invocation is
positional with the path as the sole argument. -/
theorem claim_C7 :
    (∀ (m : SDKMethod) (fp : String),
      callPath (make_path_caller m) fp =
        match firstArgParam m.params with
        | some p => .kwPath m p fp
        | none => .posPath m fp) ∧
    (∀ (m : SDKMethod) (fp fp' p p' : String),
      callPath (make_path_caller m) fp = .kwPath m p fp →
      callPath (make_path_caller m) fp' = .kwPath m p' fp' →
      p = p') ∧
    (∀ (m : SDKMethod) (fp : String), firstArgParam m.params = none →
      callPath (make_path_caller m) fp = .posPath m fp) ∧
    (∀ m : SDKMethod, firstArgParam m.params = none ↔ m.params = []) := by
  refine ⟨?_, ?_, ?_, ?_⟩
  · intro m fp
    rfl
  · intro m fp fp' p p' h h'
    rw [callPath, make_path_caller] at h h'
    rcases hp : firstArgParam m.params with _ | q <;> rw [hp] at h h' <;>
      simp at h h'
    subst h
    exact h'
  · intro m fp h
    rw [callPath, make_path_caller]
    simp [h]
  · intro m
    obtain ⟨l⟩ := m
    rcases l with _ | ⟨p0, _ | ⟨p1, rest⟩⟩ <;> simp [firstArgParam]
    split <;> simp

/-- Witness for C7: a bound-method signature `(self, file_path)` calls by
the keyword `file_path`; an empty signature falls back to a positional
call with the path as the sole argument. -/
theorem claim_C7_witness :
    callPath (make_path_caller ⟨["self", "file_path"]⟩) "/r/a.txt" =
      .kwPath ⟨["self", "file_path"]⟩ "file_path" "/r/a.txt" ∧
    callPath (make_path_caller ⟨[]⟩) "/r/a.txt" = .posPath ⟨[]⟩ "/r/a.txt" ∧
    (firstArgParam ([] : List String) = none ↔ ([] : List String) = []) :=
  ⟨claim_C7.1 ⟨["self", "file_path"]⟩ "/r/a.txt",
   claim_C7.2.2.1 ⟨[]⟩ "/r/a.txt" rfl,
   claim_C7.2.2.2 ⟨[]⟩⟩

/-- Claim C8: every invocation of the operation built by
`_make_handle_caller` opens the file in binary read mode (`"rb"`),
invokes the underlying entry point with the open handle (keyword or
positional per the bound parameter), and closes the handle exactly once,
after the invocation and before the outcome propagates — identically
whether the remote call's outcome is a normal return, a remote error
result, or a raised exception, which is propagated unchanged. -/
theorem claim_C8 :
    ∀ (m : SDKMethod) (fp : String) (outcome : Except String Nat),
      (callHandle (make_handle_caller m) fp outcome).1 =
        [.opened fp "rb",
         .invoked (match firstArgParam m.params with
           | some p => UploadCall.kwHandle m p fp
           | none => UploadCall.posHandle m fp),
         .closed fp] ∧
      ((callHandle (make_handle_caller m) fp outcome).1.countP
          (fun ev => ev == FileEvent.closed fp)) = 1 ∧
      (callHandle (make_handle_caller m) fp outcome).2 = outcome := by
  intro m fp outcome
  refine ⟨?_, ?_, rfl⟩
  · rcases h : firstArgParam m.params with _ | p <;>
      simp [callHandle, make_handle_caller, h]
  · rcases h : firstArgParam m.params with _ | p <;>
      simp [callHandle, make_handle_caller, h, List.countP_cons,
        List.countP_nil, beq_iff_eq]

/-- Witness for C8: with a handle-based method of signature
`(self, file_source)`, an invocation that succeeds with HTTP 200 and one
whose remote call raises both produce the same open-invoke-close event
sequence, close the handle exactly once, and propagate their outcome. -/
theorem claim_C8_witness :
    ((callHandle (make_handle_caller ⟨["self", "file_source"]⟩) "/r/a.bin"
        (.ok 200)).1 =
      [.opened "/r/a.bin" "rb",
       .invoked (.kwHandle ⟨["self", "file_source"]⟩ "file_source" "/r/a.bin"),
       .closed "/r/a.bin"] ∧
     ((callHandle (make_handle_caller ⟨["self", "file_source"]⟩) "/r/a.bin"
        (.ok 200)).1.countP
          (fun ev => ev == FileEvent.closed "/r/a.bin")) = 1 ∧
     (callHandle (make_handle_caller ⟨["self", "file_source"]⟩) "/r/a.bin"
        (.ok 200)).2 = .ok 200) ∧
    (callHandle (make_handle_caller ⟨["self", "file_source"]⟩) "/r/a.bin"
        (.error "connection aborted")).2 = .error "connection aborted" :=
  ⟨claim_C8 ⟨["self", "file_source"]⟩ "/r/a.bin" (.ok 200),
   (claim_C8 ⟨["self", "file_source"]⟩ "/r/a.bin"
     (.error "connection aborted")).2.2⟩

/-- The exit decision `sys.exit(1) if failed > 0 else` normal return:
code 0 exactly when nothing failed, code 1 whenever something did. -/
lemma exitCode_spec (c2 : Nat) :
    (((if c2 > 0 then (1 : Nat) else 0) = 0) ↔ c2 = 0) ∧
    (c2 > 0 → (if c2 > 0 then (1 : Nat) else 0) = 1) := by
  by_cases hf : c2 > 0 <;> simp [hf] <;> omega

/-- Claim C9: a completed run (one that returns a summary rather than a
fatal error) exits with code 0 exactly when `failed = 0`, exits with code
1 whenever `failed > 0`, and in the zero-files case — nothing collected —
exits 0 with an all-zero upload count. -/
theorem claim_C9 :
    (∀ (c : A1000Client) (listing : List (FileEntry × Bool))
        (excludes : List String) (fn : String → Nat → AttemptResult)
        (retries : Nat) (retryDelay : ℚ) (s : RunSummary) (ec : Nat),
      main_run c listing excludes fn retries retryDelay = .ok (s, ec) →
      ((ec = 0 ↔ s.failed = 0) ∧ (s.failed > 0 → ec = 1))) ∧
    (∀ (c : A1000Client) (listing : List (FileEntry × Bool))
        (excludes : List String) (fn : String → Nat → AttemptResult)
        (retries : Nat) (retryDelay : ℚ) (u : UploadFn),
      resolve_upload_fn c = .ok u →
      (collect_files_dir listing excludes).1 = [] →
      main_run c listing excludes fn retries retryDelay =
        .ok (⟨0, 0, (collect_files_dir listing excludes).2,
              (collect_files_dir listing excludes).2⟩, 0)) := by
  constructor
  · intro c listing excludes fn retries retryDelay s ec h
    rw [main_run] at h
    rcases hres : resolve_upload_fn c with e | u <;> rw [hres] at h
    · simp at h
    · simp only [] at h
      by_cases hemp : (collect_files_dir listing excludes).1.isEmpty
      · rw [if_pos hemp] at h
        simp only [Except.ok.injEq, Prod.mk.injEq] at h
        obtain ⟨hs, hec⟩ := h
        subst hs
        subst hec
        simp
      · rw [if_neg hemp] at h
        simp only [Except.ok.injEq, Prod.mk.injEq] at h
        obtain ⟨hs, hec⟩ := h
        subst hs
        subst hec
        exact exitCode_spec _
  · intro c listing excludes fn retries retryDelay u hres hemp
    rw [main_run, hres]
    simp [hemp]

/-- Witness for C9, replaying the spec's end-to-end scenario: a directory
with `a.txt`, `b.exe`, `c.tmp`, exclude pattern `*.tmp`, where `a.txt`
uploads with HTTP 200 and `b.exe` answers HTTP 503 on all three attempts:
the run completes with summary `uploaded 1, failed 1, skipped 1, total 3`
and exit code 1, the exit code is non-zero exactly because `failed > 0`,
and an empty collection completes with the zero summary and exit code
0. -/
theorem claim_C9_witness :
    main_run ⟨some ⟨["self", "file_path"]⟩, none, none, none⟩
        [(⟨"/r", "a.txt"⟩, true), (⟨"/r", "b.exe"⟩, true), (⟨"/r", "c.tmp"⟩, true)]
        ["*.tmp"]
        (fun f _ => if f = "/r/b.exe" then .status 503 else .status 200)
        3 5 = .ok (⟨1, 1, 1, 3⟩, 1) ∧
    (((1 : Nat) = 0 ↔ ((⟨1, 1, 1, 3⟩ : RunSummary).failed = 0)) ∧
      ((⟨1, 1, 1, 3⟩ : RunSummary).failed > 0 → (1 : Nat) = 1)) ∧
    main_run ⟨some ⟨["self", "file_path"]⟩, none, none, none⟩ [] []
        (fun _ _ => .status 200) 3 5 = .ok (⟨0, 0, 0, 0⟩, 0) := by
  have h1 : main_run ⟨some ⟨["self", "file_path"]⟩, none, none, none⟩
      [(⟨"/r", "a.txt"⟩, true), (⟨"/r", "b.exe"⟩, true), (⟨"/r", "c.tmp"⟩, true)]
      ["*.tmp"]
      (fun f _ => if f = "/r/b.exe" then .status 503 else .status 200)
      3 5 = .ok (⟨1, 1, 1, 3⟩, 1) := rfl
  refine ⟨h1, claim_C9.1 _ _ _ _ _ _ _ _ h1, ?_⟩
  exact claim_C9.2 ⟨some ⟨["self", "file_path"]⟩, none, none, none⟩ [] []
    (fun _ _ => .status 200) 3 5
    (.pathCaller (make_path_caller ⟨["self", "file_path"]⟩)) rfl rfl

end RLUpload
